import Mathlib

/-!
Shallow embedding of the auction backend (`src/backend`) of the `dpl`
repository: a document store holding `players`, `teams`, `bids` and
`registrations` collections, and the controller operations acting on it.

Modelling conventions:
* A MongoDB collection is a `List (Nat × α)`: the pair's first component is
  the document's `_id` (opaque `ObjectId`s become `Nat`), the list order is
  the collection's natural order used by unsorted `find_one` scans.
  `insert_one` appends at the end; `update_one` on an `_id` filter updates
  the match (MongoDB guarantees `_id` is a unique primary key, so mapping
  over all entries with that key is the same operation).
* Fields that a document may lack (`doc.get(key, default)` in Python) are
  `Option` fields; the controllers' defaults (`purse_balance` 8000,
  `base_price` 100) are applied at the read sites, as in the source.
* `datetime.utcnow()` bookkeeping (`created_at` / `updated_at` /
  `timestamp`) and presentation-only fields (image URLs, owner contact,
  uploaded-file references) are outside the embedded state.
* `python`'s `raise HTTPException` becomes the `Result.err` constructor,
  carrying the store state as mutated so far (HTTP 400 = `invalidArgument`,
  HTTP 404 = `notFound`); nondeterministic inputs (fresh `ObjectId`s,
  `random.shuffle`) become explicit parameters.
-/

inductive AuctionStatus where
  | pending
  | live
  | sold
  | unsold
deriving DecidableEq, Repr

inductive RegistrationStatus where
  | pending
  | approved
  | rejected
deriving DecidableEq, Repr

/-- A document of the `players` collection (`schemas.PlayerBase` plus the
auction-extension fields the controllers read and write). -/
structure Player where
  name : String
  phone : String
  role : String
  place : String
  base_price : Option Int
  auction_status : Option AuctionStatus
  is_icon_player : Bool
  icon_player_team_id : Option Nat
  auction_order : Option Nat
  sold_price : Option Int
  sold_to_team_id : Option Nat
deriving DecidableEq, Repr

/-- A document of the `teams` collection (`schemas.TeamBase`). -/
structure Team where
  name : String
  owner_name : String
  purse_balance : Option Int
  icon_player_ids : List Nat
deriving DecidableEq, Repr

/-- A document of the `bids` collection (`BidCreate` payload plus the
denormalized `team_name` snapshot written by `create_bid`). -/
structure Bid where
  player_id : Nat
  team_id : Nat
  amount : Int
  team_name : String
deriving DecidableEq, Repr

/-- A document of the `registrations` collection (the applicant fields that
`approve_registration` copies into the synthesized player, plus the
workflow fields). -/
structure Registration where
  player_name : String
  phone : String
  role : String
  place : String
  status : RegistrationStatus
  rejection_reason : Option String
  payment_reference : Option String
deriving DecidableEq, Repr

/-- The document store (`get_database()`): the four collections the embedded
controllers touch. -/
structure DB where
  players : List (Nat × Player)
  teams : List (Nat × Team)
  bids : List Bid
  registrations : List (Nat × Registration)
deriving DecidableEq, Repr

def DB.empty : DB := ⟨[], [], [], []⟩

/-- `collection.find_one({"_id": id})`. -/
def findOne {α : Type} (l : List (Nat × α)) (k : Nat) : Option α :=
  (l.find? (fun kv => kv.1 == k)).map (fun kv => kv.2)

/-- Whether an `update_one({"_id": id}, ...)` would report `matched_count ≥ 1`. -/
def containsKey {α : Type} (l : List (Nat × α)) (k : Nat) : Bool :=
  l.any (fun kv => kv.1 == k)

/-- `collection.update_one({"_id": id}, {"$set": ...})`: `_id` is MongoDB's
unique primary key, so updating every entry carrying the key is the same
write. -/
def updateEntry {α : Type} (l : List (Nat × α)) (k : Nat) (f : α → α) :
    List (Nat × α) :=
  l.map (fun kv => if kv.1 = k then (kv.1, f kv.2) else kv)

/-- Outcome of a controller call: the HTTP-error taxonomy of the backend
(400 `InvalidArgument`, 404 `NotFound`). -/
inductive Err where
  | invalidArgument
  | notFound
deriving DecidableEq, Repr

/-- A controller call returns the store state it leaves behind, whether it
returned normally (`ok`) or raised (`err`, with the writes already issued
before the raise). -/
inductive Result where
  | ok (db : DB)
  | err (e : Err) (db : DB)
deriving DecidableEq, Repr

def Result.isOk : Result → Bool
  | .ok _ => true
  | .err _ _ => false

/-- `bids_collection.find_one({"player_id": pid}, sort=[("amount", -1)])`,
projected to its `amount` (`highest_bid.get("amount", 0)`; every stored bid
has the field, and ties share the amount). -/
def highestBidAmount (bids : List Bid) (pid : Nat) : Option Int :=
  ((bids.filter (fun b => b.player_id == pid)).map (fun b => b.amount)).foldr
    (fun a m => match m with | none => some a | some x => some (max a x)) none

/-- `BidController.create_bid` (`bid_controller.py`): validate player, team,
purse, then first-bid/raise rules; on success insert the bid and set the
player's `auction_status` to `live`. -/
def create_bid (db : DB) (player_id team_id : Nat) (amount : Int) : Result :=
  match findOne db.players player_id with
  | none => .err .notFound db
  | some player =>
    match findOne db.teams team_id with
    | none => .err .notFound db
    | some team =>
      let purse_balance := team.purse_balance.getD 8000
      if amount > purse_balance then .err .invalidArgument db
      else
        let base_price := player.base_price.getD 100
        match highestBidAmount db.bids player_id with
        | none =>
          if amount < base_price then .err .invalidArgument db
          else
            let bid : Bid := ⟨player_id, team_id, amount, team.name⟩
            .ok { db with
              bids := db.bids ++ [bid],
              players := updateEntry db.players player_id
                (fun p => { p with auction_status := some .live }) }
        | some highest =>
          if amount ≤ highest then .err .invalidArgument db
          else
            let bid : Bid := ⟨player_id, team_id, amount, team.name⟩
            .ok { db with
              bids := db.bids ++ [bid],
              players := updateEntry db.players player_id
                (fun p => { p with auction_status := some .live }) }

/-- `AuctionController.finalize_player_sale` (`auction_controller.py`):
team lookup, balance check, player update (raising `NotFound` when the
update matched nothing), then the purse deduction. -/
def finalize_player_sale (db : DB) (player_id team_id : Nat)
    (sale_price : Int) : Result :=
  match findOne db.teams team_id with
  | none => .err .notFound db
  | some team =>
    let current_balance := team.purse_balance.getD 8000
    if sale_price > current_balance then .err .invalidArgument db
    else
      let players1 := updateEntry db.players player_id
        (fun p => { p with
          auction_status := some .sold,
          sold_to_team_id := some team_id,
          sold_price := some sale_price })
      if containsKey db.players player_id then
        .ok { db with
          players := players1,
          teams := updateEntry db.teams team_id
            (fun t => { t with
              purse_balance := some (current_balance - sale_price) }) }
      else .err .notFound { db with players := players1 }

/-- `AuctionController.update_auction_status`: unconditional status
overwrite, `NotFound` when the update matched nothing. -/
def update_auction_status (db : DB) (player_id : Nat)
    (new_status : AuctionStatus) : Result :=
  let players1 := updateEntry db.players player_id
    (fun p => { p with auction_status := some new_status })
  if containsKey db.players player_id then .ok { db with players := players1 }
  else .err .notFound { db with players := players1 }

/-- `AuctionController.mark_player_unsold`: set `unsold`, clear the sold
fields, `NotFound` when the update matched nothing. -/
def mark_player_unsold (db : DB) (player_id : Nat) : Result :=
  let players1 := updateEntry db.players player_id
    (fun p => { p with
      auction_status := some .unsold,
      sold_price := none,
      sold_to_team_id := none })
  if containsKey db.players player_id then .ok { db with players := players1 }
  else .err .notFound { db with players := players1 }

def DEFAULT_PURSE_BALANCE : Int := 8000
def ICON_PLAYER_COST : Int := 1500
def MAX_ICON_PLAYERS : Nat := 2

/-- `IconPlayerController.assign_icon_player` (`icon_player_controller.py`). -/
def assign_icon_player (db : DB) (player_id team_id : Nat) : Result :=
  match findOne db.players player_id with
  | none => .err .notFound db
  | some player =>
    if player.is_icon_player then .err .invalidArgument db
    else
      match findOne db.teams team_id with
      | none => .err .notFound db
      | some team =>
        let icon_player_ids := team.icon_player_ids
        if icon_player_ids.length ≥ MAX_ICON_PLAYERS then
          .err .invalidArgument db
        else
          let players1 := updateEntry db.players player_id
            (fun p => { p with
              is_icon_player := true,
              icon_player_team_id := some team_id })
          let new_ids := icon_player_ids ++ [player_id]
          let new_purse_balance :=
            DEFAULT_PURSE_BALANCE - (new_ids.length : Int) * ICON_PLAYER_COST
          .ok { db with
            players := players1,
            teams := updateEntry db.teams team_id
              (fun t => { t with
                icon_player_ids := new_ids,
                purse_balance := some new_purse_balance }) }

/-- `IconPlayerController.unassign_icon_player`: clear the player's icon
flags; when the recorded team exists, drop the player from its icon list
(`list.remove`: first occurrence) and recompute the purse with the same
formula. -/
def unassign_icon_player (db : DB) (player_id : Nat) : Result :=
  match findOne db.players player_id with
  | none => .err .notFound db
  | some player =>
    if player.is_icon_player = false then .err .invalidArgument db
    else
      let db1 : DB := { db with
        players := updateEntry db.players player_id
          (fun p => { p with
            is_icon_player := false,
            icon_player_team_id := none }) }
      match player.icon_player_team_id with
      | none => .ok db1
      | some team_id =>
        match findOne db1.teams team_id with
        | none => .ok db1
        | some team =>
          let new_ids := team.icon_player_ids.erase player_id
          let new_purse_balance :=
            DEFAULT_PURSE_BALANCE - (new_ids.length : Int) * ICON_PLAYER_COST
          .ok { db1 with
            teams := updateEntry db1.teams team_id
              (fun t => { t with
                icon_player_ids := new_ids,
                purse_balance := some new_purse_balance }) }

/-- `AuctionOrderController.update_auction_order`: look the player up, find
any other player holding the target order (`find_one` on the natural
order), give that player the current player's old order, then set the
target order on the current player. -/
def update_auction_order (db : DB) (player_id : Nat) (new_order : Nat) :
    Result :=
  match findOne db.players player_id with
  | none => .err .notFound db
  | some player =>
    let current_order := player.auction_order
    let other := db.players.find?
      (fun kv => kv.2.auction_order == some new_order && kv.1 != player_id)
    let players1 :=
      match other with
      | none => db.players
      | some kv => updateEntry db.players kv.1
          (fun p => { p with auction_order := current_order })
    .ok { db with
      players := updateEntry players1 player_id
        (fun p => { p with auction_order := some new_order }) }

/-- The ids `randomize_auction_order` collects before shuffling: players
with `auction_status == "pending"` when `only_pending`, otherwise all
players with a non-null `auction_status`. -/
def randomizeIds (players : List (Nat × Player)) (only_pending : Bool) :
    List Nat :=
  (players.filter (fun kv =>
    if only_pending then kv.2.auction_status == some .pending
    else kv.2.auction_status != none)).map (fun kv => kv.1)

/-- The update loop of `randomize_auction_order`: walk the shuffled id list
and store order `n`, `n+1`, ... on the corresponding players. -/
def setOrders (players : List (Nat × Player)) :
    List Nat → Nat → List (Nat × Player)
  | [], _ => players
  | pid :: rest, n =>
    setOrders
      (updateEntry players pid (fun p => { p with auction_order := some n }))
      rest (n + 1)

/-- `AuctionOrderController.randomize_auction_order`, with the outcome of
`random.shuffle` over the collected ids passed in as `shuffled`; orders are
reassigned as the 1-based rank in the shuffled sequence. -/
def randomize_auction_order (db : DB) (shuffled : List Nat) : DB :=
  { db with players := setOrders db.players shuffled 1 }

/-- The order value the update loop of `randomize_auction_order` finally
stores for key `k` when walking the shuffled list `l` with counter `n`
(later assignments overwrite earlier ones). -/
def assignOf : List Nat → Nat → Nat → Option Nat
  | [], _, _ => none
  | pid :: rest, n, k =>
    match assignOf rest (n + 1) k with
    | some m => some m
    | none => if k = pid then some n else none

/-- `TeamController.create_team`: name-uniqueness check, then insert the
payload document under the fresh id. -/
def create_team (db : DB) (newId : Nat) (payload : Team) : Result :=
  if db.teams.any (fun kv => kv.2.name == payload.name) then
    .err .invalidArgument db
  else .ok { db with teams := db.teams ++ [(newId, payload)] }

/-- `find_one({"auction_order": {"$ne": None}}, sort=[...desc...])`
projected to `.get("auction_order", 0)`: the maximum stored order, 0 when
none is set. -/
def maxOrder (players : List (Nat × Player)) : Nat :=
  (players.filterMap (fun kv => kv.2.auction_order)).foldr max 0

/-- `AuctionController.create_auction_player`: insert the payload with the
auction fields initialized (`or`-defaults for base price, status and order;
sold fields forced to null). -/
def create_auction_player (db : DB) (newId : Nat) (payload : Player) :
    Result :=
  let next_order := maxOrder db.players + 1
  let doc : Player := { payload with
    base_price := some (payload.base_price.getD 100),
    auction_status := some (payload.auction_status.getD .pending),
    auction_order := some (payload.auction_order.getD next_order),
    sold_price := none,
    sold_to_team_id := none }
  .ok { db with players := db.players ++ [(newId, doc)] }

/-- Python's `str.strip()`: drop leading and trailing whitespace. -/
def pyStrip (s : String) : String :=
  ⟨((s.data.dropWhile Char.isWhitespace).reverse.dropWhile
      Char.isWhitespace).reverse⟩

/-- `RegistrationController.approve_registration`
(`registration_controller.py`): reject blank references (`not
payment_reference or not payment_reference.strip()`), reject references
already consumed by an approved registration, update the registration, and
synthesize a new player document from the applicant fields (the inserted
document carries no auction fields). -/
def approve_registration (db : DB) (registration_id : Nat)
    (payment_reference : String) (newPlayerId : Nat) : Result :=
  let ref := pyStrip payment_reference
  if ref = "" then .err .invalidArgument db
  else
    match db.registrations.find?
        (fun kv => kv.2.payment_reference == some ref &&
          kv.2.status == RegistrationStatus.approved) with
    | some _ => .err .invalidArgument db
    | none =>
      match findOne db.registrations registration_id with
      | none => .err .notFound db
      | some registration =>
        let db1 : DB := { db with
          registrations := updateEntry db.registrations registration_id
            (fun g => { g with
              status := .approved,
              rejection_reason := none,
              payment_reference := some ref }) }
        let player_doc : Player := {
          name := registration.player_name,
          phone := registration.phone,
          role := registration.role,
          place := registration.place,
          base_price := none,
          auction_status := none,
          is_icon_player := false,
          icon_player_team_id := none,
          auction_order := none,
          sold_price := none,
          sold_to_team_id := none }
        .ok { db1 with players := db1.players ++ [(newPlayerId, player_doc)] }

/-- The store state a controller call leaves behind. -/
def Result.db : Result → DB
  | .ok db => db
  | .err _ db => db

/-! ### Concrete example states (used by the spec's worked examples and the
witnesses) -/

def exTeam : Team :=
  { name := "t", owner_name := "o", purse_balance := some 8000,
    icon_player_ids := [] }

def exPlayerA : Player :=
  { name := "a", phone := "1", role := "bat", place := "x",
    base_price := some 100, auction_status := some .pending,
    is_icon_player := false, icon_player_team_id := none,
    auction_order := some 1, sold_price := none, sold_to_team_id := none }

def exPlayerB : Player :=
  { exPlayerA with name := "b", phone := "2", auction_order := some 2 }

def exPlayerC : Player :=
  { exPlayerA with name := "c", phone := "3", auction_order := some 3 }

/-- Two auction players and one fresh team. -/
def exDB : DB :=
  { players := [(10, exPlayerA), (11, exPlayerB)], teams := [(1, exTeam)],
    bids := [], registrations := [] }

/-- State after the first worked finalization of C2 (player 10 to team 1 at
1500). -/
def exDBafterSale : DB := (finalize_player_sale exDB 10 1 1500).db

/-- The balance-500 team of the C4 worked example. -/
def exTeam500 : Team := { exTeam with name := "u", purse_balance := some 500 }

def exDB500 : DB :=
  { players := [(10, exPlayerA)], teams := [(2, exTeam500)], bids := [],
    registrations := [] }

/-- A recorded first bid of 100 on player 10 (C1 worked example). -/
def exBid100 : Bid := ⟨10, 1, 100, "t"⟩

def exDBbid : DB := { exDB with bids := [exBid100] }

/-- Three non-icon players and one fresh team (C3 worked example). -/
def exDB3 : DB :=
  { players := [(10, exPlayerA), (11, exPlayerB), (12, exPlayerC)],
    teams := [(1, exTeam)], bids := [], registrations := [] }

def exDBicon1 : DB := (assign_icon_player exDB3 10 1).db

def exDBicon2 : DB := (assign_icon_player exDBicon1 11 1).db

/-- A pending registration awaiting approval (C7). -/
def exRegPending : Registration :=
  { player_name := "n", phone := "9", role := "bat", place := "x",
    status := .pending, rejection_reason := none, payment_reference := none }

/-- A rejected registration that already carries payment reference `R1`. -/
def exRegRejected : Registration :=
  { exRegPending with
    player_name := "m", phone := "8", status := .rejected,
    rejection_reason := some "r", payment_reference := some "R1" }

/-- An approved registration that already carries payment reference `R1`. -/
def exRegApproved : Registration :=
  { exRegPending with
    player_name := "k", phone := "7", status := .approved,
    payment_reference := some "R1" }

/-- A player already sold to team 1 (outside the pending set for C6). -/
def exPlayerSold : Player :=
  { exPlayerC with
    auction_status := some .sold, sold_to_team_id := some 1,
    sold_price := some 500 }

/-- Two pending players and one sold player (C6 worked example). -/
def exDBmixed : DB :=
  { players := [(10, exPlayerA), (11, exPlayerB), (12, exPlayerSold)],
    teams := [(1, exTeam)], bids := [], registrations := [] }

/-- Reference `R1` was used only by a rejected registration. -/
def exDBreg : DB :=
  { players := [], teams := [], bids := [],
    registrations := [(5, exRegPending), (6, exRegRejected)] }

/-- Reference `R1` was already consumed by an approved registration. -/
def exDBregUsed : DB :=
  { players := [], teams := [], bids := [],
    registrations := [(5, exRegPending), (6, exRegApproved)] }

/-- `PlayerController.delete_player`: `delete_one` on the id (removing the
unique `_id` match), `NotFound` when nothing was deleted. -/
def delete_player (db : DB) (player_id : Nat) : Result :=
  if containsKey db.players player_id then
    .ok { db with
      players := db.players.eraseP (fun kv => kv.1 == player_id) }
  else .err .notFound db

/-- The `TeamUpdate` payload (`schemas.py`): partial update, only non-null
fields are applied. -/
structure TeamUpdatePayload where
  name : Option String
  owner_name : Option String
  purse_balance : Option Int
  icon_player_ids : Option (List Nat)
deriving DecidableEq, Repr

/-- `TeamController.update_team`: when a (truthy, i.e. non-empty) name is
supplied, reject a name already used by another team; then `$set` the
non-null payload fields, `NotFound` when the update matched nothing. -/
def update_team (db : DB) (team_id : Nat) (payload : TeamUpdatePayload) :
    Result :=
  let nameClash :=
    match payload.name with
    | none => false
    | some nm =>
      if nm = "" then false
      else db.teams.any (fun kv => kv.2.name == nm && kv.1 != team_id)
  if nameClash then .err .invalidArgument db
  else
    let teams1 := updateEntry db.teams team_id (fun t =>
      { name := (payload.name).getD t.name,
        owner_name := (payload.owner_name).getD t.owner_name,
        purse_balance :=
          match payload.purse_balance with
          | some b => some b
          | none => t.purse_balance,
        icon_player_ids :=
          (payload.icon_player_ids).getD t.icon_player_ids })
    if containsKey db.teams team_id then .ok { db with teams := teams1 }
    else .err .notFound { db with teams := teams1 }

/-- `TeamController.delete_team`: `delete_one`, `NotFound` when nothing was
deleted. -/
def delete_team (db : DB) (team_id : Nat) : Result :=
  if containsKey db.teams team_id then
    .ok { db with teams := db.teams.eraseP (fun kv => kv.1 == team_id) }
  else .err .notFound db

/-- `BidController.delete_bid`: look the bid up by id (`NotFound` when
missing) and delete exactly that document. Bids carry no key in this
embedding, so the deleted document is identified by its position in the
collection's natural order. -/
def delete_bid (db : DB) (i : Nat) : Result :=
  if i < db.bids.length then .ok { db with bids := db.bids.eraseIdx i }
  else .err .notFound db

/-- `RegistrationController.create_registration`: reject a phone already in
the registrations or players collection, then insert the applicant document
with status `pending` (`payment_reference` is not part of the create
payload). -/
def create_registration (db : DB) (newId : Nat) (payload : Registration) :
    Result :=
  if db.registrations.any (fun kv => kv.2.phone == payload.phone) then
    .err .invalidArgument db
  else if db.players.any (fun kv => kv.2.phone == payload.phone) then
    .err .invalidArgument db
  else
    .ok { db with registrations := db.registrations ++ [(newId,
      { payload with
        status := .pending,
        rejection_reason := none,
        payment_reference := none })] }

/-- The `RegistrationUpdate` payload (`schemas.py`): partial update of
status and rejection reason. -/
structure RegistrationUpdatePayload where
  status : Option RegistrationStatus
  rejection_reason : Option String
deriving DecidableEq, Repr

/-- `RegistrationController.update_registration`: `$set` the non-null
payload fields, `NotFound` when the update matched nothing. -/
def update_registration (db : DB) (registration_id : Nat)
    (payload : RegistrationUpdatePayload) : Result :=
  let regs1 := updateEntry db.registrations registration_id (fun g =>
    { g with
      status := (payload.status).getD g.status,
      rejection_reason :=
        match payload.rejection_reason with
        | some r => some r
        | none => g.rejection_reason })
  if containsKey db.registrations registration_id then
    .ok { db with registrations := regs1 }
  else .err .notFound { db with registrations := regs1 }

/-- `RegistrationController.reject_registration`: set status `rejected`
with the reason, `NotFound` when the update matched nothing. -/
def reject_registration (db : DB) (registration_id : Nat) (reason : String) :
    Result :=
  let regs1 := updateEntry db.registrations registration_id (fun g =>
    { g with status := .rejected, rejection_reason := some reason })
  if containsKey db.registrations registration_id then
    .ok { db with registrations := regs1 }
  else .err .notFound { db with registrations := regs1 }

/-- `RegistrationController.delete_registration`: `delete_one`, `NotFound`
when nothing was deleted. -/
def delete_registration (db : DB) (registration_id : Nat) : Result :=
  if containsKey db.registrations registration_id then
    .ok { db with registrations :=
      db.registrations.eraseP (fun kv => kv.1 == registration_id) }
  else .err .notFound db

/-- The ids `initialize_auction_for_all_players` collects: players whose
`auction_status` is null or absent. -/
def notInAuctionIds (players : List (Nat × Player)) : List Nat :=
  (players.filter (fun kv => kv.2.auction_status == none)).map
    (fun kv => kv.1)

/-- The update loop of `initialize_auction_for_all_players`: walk the
queried ids storing order `n`, `n+1`, ... while resetting the auction
fields (base price, `pending` status, cleared icon and sold fields). -/
def initPlayersLoop (players : List (Nat × Player)) (base_price : Int) :
    List Nat → Nat → List (Nat × Player)
  | [], _ => players
  | pid :: rest, n =>
    initPlayersLoop
      (updateEntry players pid (fun p =>
        { p with
          base_price := some base_price,
          auction_status := some .pending,
          is_icon_player := false,
          icon_player_team_id := none,
          auction_order := some n,
          sold_price := none,
          sold_to_team_id := none }))
      base_price rest (n + 1)

/-- `AuctionOrderController.initialize_auction_for_all_players`: initialize
the auction fields of every player not yet in auction, with orders
continuing after the current maximum (the empty-query early return equals
the empty loop). -/
def initialize_auction_for_all_players (db : DB) (base_price : Int) :
    Result :=
  let players1 := initPlayersLoop db.players base_price
    (notInAuctionIds db.players) (maxOrder db.players + 1)
  .ok { db with players := players1 }

/-- The ids `initialize_auction_order` collects: players with a status but
without an order. -/
def noOrderIds (players : List (Nat × Player)) : List Nat :=
  (players.filter (fun kv =>
    kv.2.auction_status != none && kv.2.auction_order == none)).map
    (fun kv => kv.1)

/-- `AuctionOrderController.initialize_auction_order`: assign orders
`max+1, max+2, ...` to the players with a status but no order (the same
store-order walk as the randomize loop). -/
def initialize_auction_order (db : DB) : Result :=
  let players1 :=
    setOrders db.players (noOrderIds db.players) (maxOrder db.players + 1)
  .ok { db with players := players1 }

/-! ### Reachability (C8) -/

/-- The C8 invariant for one player document: a set `sold_to_team_id`
implies `auction_status == sold`. -/
def PlayerSoldOk (p : Player) : Prop :=
  (p.sold_to_team_id).isSome → p.auction_status = some AuctionStatus.sold

/-- The C8 invariant over a store: every player with `sold_to_team_id` set
has `auction_status == sold`. -/
def SoldLink (db : DB) : Prop :=
  ∀ kv ∈ db.players, PlayerSoldOk kv.2

/-- One public operation of the interface named by the claim (record
creation/update/deletion, bidding, finalization, status override, unsold
marking, icon and order operations, registration workflow). Only `ok`
outcomes produce a step: for these operations every error path carries a
store equal to the pre-state, so failures reach no new states. Fresh
`ObjectId`s and the shuffle outcome are quantified. -/
inductive Step : DB → DB → Prop where
  | createTeam (db : DB) (newId : Nat) (payload : Team) (db' : DB) :
      create_team db newId payload = .ok db' → Step db db'
  | createAuctionPlayer (db : DB) (newId : Nat) (payload : Player)
      (db' : DB) :
      create_auction_player db newId payload = .ok db' → Step db db'
  | placeBid (db : DB) (p t : Nat) (amount : Int) (db' : DB) :
      create_bid db p t amount = .ok db' → Step db db'
  | finalizeSale (db : DB) (p t : Nat) (price : Int) (db' : DB) :
      finalize_player_sale db p t price = .ok db' → Step db db'
  | updateStatus (db : DB) (p : Nat) (st : AuctionStatus) (db' : DB) :
      update_auction_status db p st = .ok db' → Step db db'
  | markUnsold (db : DB) (p : Nat) (db' : DB) :
      mark_player_unsold db p = .ok db' → Step db db'
  | assignIcon (db : DB) (p t : Nat) (db' : DB) :
      assign_icon_player db p t = .ok db' → Step db db'
  | unassignIcon (db : DB) (p : Nat) (db' : DB) :
      unassign_icon_player db p = .ok db' → Step db db'
  | updateOrder (db : DB) (p n : Nat) (db' : DB) :
      update_auction_order db p n = .ok db' → Step db db'
  | randomize (db : DB) (only_pending : Bool) (shuffled : List Nat) :
      shuffled.Perm (randomizeIds db.players only_pending) →
      Step db (randomize_auction_order db shuffled)
  | approveRegistration (db : DB) (rid : Nat) (ref : String) (newId : Nat)
      (db' : DB) :
      approve_registration db rid ref newId = .ok db' → Step db db'
  | deletePlayer (db : DB) (p : Nat) (db' : DB) :
      delete_player db p = .ok db' → Step db db'
  | updateTeam (db : DB) (t : Nat) (payload : TeamUpdatePayload) (db' : DB) :
      update_team db t payload = .ok db' → Step db db'
  | deleteTeam (db : DB) (t : Nat) (db' : DB) :
      delete_team db t = .ok db' → Step db db'
  | deleteBid (db : DB) (i : Nat) (db' : DB) :
      delete_bid db i = .ok db' → Step db db'
  | createRegistration (db : DB) (newId : Nat) (payload : Registration)
      (db' : DB) :
      create_registration db newId payload = .ok db' → Step db db'
  | updateRegistration (db : DB) (rid : Nat)
      (payload : RegistrationUpdatePayload) (db' : DB) :
      update_registration db rid payload = .ok db' → Step db db'
  | rejectRegistration (db : DB) (rid : Nat) (reason : String) (db' : DB) :
      reject_registration db rid reason = .ok db' → Step db db'
  | deleteRegistration (db : DB) (rid : Nat) (db' : DB) :
      delete_registration db rid = .ok db' → Step db db'
  | initializeForAllPlayers (db : DB) (base_price : Int) (db' : DB) :
      initialize_auction_for_all_players db base_price = .ok db' →
      Step db db'
  | initializeOrderOnly (db : DB) (db' : DB) :
      initialize_auction_order db = .ok db' → Step db db'

/-- The same operation set without the unconstrained status override
(`updateStatus`) and without bid placement (`placeBid`) — the two auction
operations that overwrite `auction_status` while leaving `sold_to_team_id`
in place — and with player creation going through the auction-player
creator (raw player create/update can write `sold_to_team_id` directly
from the payload). Every other public operation is kept: team
create/update/delete, player delete, finalization, unsold marking, icon
assignment/unassignment, order update/randomize and both order
initializers, bid deletion, and registration
create/update/reject/delete/approve. -/
inductive SafeStep : DB → DB → Prop where
  | createTeam (db : DB) (newId : Nat) (payload : Team) (db' : DB) :
      create_team db newId payload = .ok db' → SafeStep db db'
  | createAuctionPlayer (db : DB) (newId : Nat) (payload : Player)
      (db' : DB) :
      create_auction_player db newId payload = .ok db' → SafeStep db db'
  | finalizeSale (db : DB) (p t : Nat) (price : Int) (db' : DB) :
      finalize_player_sale db p t price = .ok db' → SafeStep db db'
  | markUnsold (db : DB) (p : Nat) (db' : DB) :
      mark_player_unsold db p = .ok db' → SafeStep db db'
  | assignIcon (db : DB) (p t : Nat) (db' : DB) :
      assign_icon_player db p t = .ok db' → SafeStep db db'
  | unassignIcon (db : DB) (p : Nat) (db' : DB) :
      unassign_icon_player db p = .ok db' → SafeStep db db'
  | updateOrder (db : DB) (p n : Nat) (db' : DB) :
      update_auction_order db p n = .ok db' → SafeStep db db'
  | randomize (db : DB) (only_pending : Bool) (shuffled : List Nat) :
      shuffled.Perm (randomizeIds db.players only_pending) →
      SafeStep db (randomize_auction_order db shuffled)
  | approveRegistration (db : DB) (rid : Nat) (ref : String) (newId : Nat)
      (db' : DB) :
      approve_registration db rid ref newId = .ok db' → SafeStep db db'
  | deletePlayer (db : DB) (p : Nat) (db' : DB) :
      delete_player db p = .ok db' → SafeStep db db'
  | updateTeam (db : DB) (t : Nat) (payload : TeamUpdatePayload) (db' : DB) :
      update_team db t payload = .ok db' → SafeStep db db'
  | deleteTeam (db : DB) (t : Nat) (db' : DB) :
      delete_team db t = .ok db' → SafeStep db db'
  | deleteBid (db : DB) (i : Nat) (db' : DB) :
      delete_bid db i = .ok db' → SafeStep db db'
  | createRegistration (db : DB) (newId : Nat) (payload : Registration)
      (db' : DB) :
      create_registration db newId payload = .ok db' → SafeStep db db'
  | updateRegistration (db : DB) (rid : Nat)
      (payload : RegistrationUpdatePayload) (db' : DB) :
      update_registration db rid payload = .ok db' → SafeStep db db'
  | rejectRegistration (db : DB) (rid : Nat) (reason : String) (db' : DB) :
      reject_registration db rid reason = .ok db' → SafeStep db db'
  | deleteRegistration (db : DB) (rid : Nat) (db' : DB) :
      delete_registration db rid = .ok db' → SafeStep db db'
  | initializeForAllPlayers (db : DB) (base_price : Int) (db' : DB) :
      initialize_auction_for_all_players db base_price = .ok db' →
      SafeStep db db'
  | initializeOrderOnly (db : DB) (db' : DB) :
      initialize_auction_order db = .ok db' → SafeStep db db'

/-- States reachable from the empty store by the claimed operation set. -/
def Reachable (db : DB) : Prop := Relation.ReflTransGen Step DB.empty db

/-- States reachable from the empty store without `updateStatus` and
`placeBid`. -/
def ReachableSafe (db : DB) : Prop :=
  Relation.ReflTransGen SafeStep DB.empty db

/-- C8 counterexample chain: team payload inserted first. -/
def cxTeamPayload : Team :=
  { name := "cx", owner_name := "o", purse_balance := some 8000,
    icon_player_ids := [] }

/-- C8 counterexample chain: the auction-player payload. -/
def cxPlayerPayload : Player :=
  { name := "cp", phone := "5", role := "bat", place := "x",
    base_price := none, auction_status := none, is_icon_player := false,
    icon_player_team_id := none, auction_order := none, sold_price := none,
    sold_to_team_id := none }

def cxDB1 : DB := (create_team DB.empty 1 cxTeamPayload).db

def cxDB2 : DB := (create_auction_player cxDB1 20 cxPlayerPayload).db

def cxDB3 : DB := (finalize_player_sale cxDB2 20 1 1500).db

def cxDB4 : DB := (update_auction_status cxDB3 20 .live).db

/-- The violating player document of `cxDB4`: `sold_to_team_id` still set,
`auction_status` overridden to `live`. -/
def cxViolPlayer : Player :=
  { name := "cp", phone := "5", role := "bat", place := "x",
    base_price := some 100, auction_status := some .live,
    is_icon_player := false, icon_player_team_id := none,
    auction_order := some 1, sold_price := some 1500,
    sold_to_team_id := some 1 }

/-! ### Store lemmas -/

theorem findOne_updateEntry_self {α : Type} (l : List (Nat × α)) (k : Nat)
    (f : α → α) : findOne (updateEntry l k f) k = (findOne l k).map f := by
  induction l with
  | nil => rfl
  | cons kv rest ih =>
    by_cases h : kv.1 = k
    · simp [updateEntry, findOne, List.find?_cons_of_pos, h]
    · simp only [updateEntry, List.map_cons, if_neg h]
      rw [findOne, List.find?_cons_of_neg, findOne, List.find?_cons_of_neg]
      · exact ih
      · simp [h]
      · simp [h]

theorem findOne_updateEntry_ne {α : Type} (l : List (Nat × α)) (k k' : Nat)
    (f : α → α) (h : k' ≠ k) :
    findOne (updateEntry l k f) k' = findOne l k' := by
  induction l with
  | nil => rfl
  | cons kv rest ih =>
    by_cases hk : kv.1 = k
    · simp only [updateEntry, List.map_cons, if_pos hk]
      simp only [updateEntry] at ih
      simp only [findOne] at ih ⊢
      rw [List.find?_cons_of_neg _
            (by simp only [hk, beq_iff_eq]; exact fun e => h e.symm),
          List.find?_cons_of_neg _
            (by simp only [hk, beq_iff_eq]; exact fun e => h e.symm)]
      exact ih
    · simp only [updateEntry, List.map_cons, if_neg hk]
      simp only [updateEntry] at ih
      by_cases hk' : kv.1 = k'
      · simp only [findOne]
        rw [List.find?_cons_of_pos _ (by simp [hk']),
            List.find?_cons_of_pos _ (by simp [hk'])]
      · simp only [findOne] at ih ⊢
        rw [List.find?_cons_of_neg _ (by simp [hk']),
            List.find?_cons_of_neg _ (by simp [hk'])]
        exact ih

theorem updateEntry_of_not_contains {α : Type} (l : List (Nat × α)) (k : Nat)
    (f : α → α) (h : containsKey l k = false) : updateEntry l k f = l := by
  induction l with
  | nil => rfl
  | cons kv rest ih =>
    simp only [containsKey, List.any_cons, Bool.or_eq_false_iff] at h
    simp only [updateEntry, List.map_cons]
    rw [if_neg (by simpa using h.1)]
    congr 1
    exact ih h.2

theorem containsKey_of_findOne {α : Type} (l : List (Nat × α)) (k : Nat)
    {v : α} (h : findOne l k = some v) : containsKey l k = true := by
  simp only [findOne, Option.map_eq_some'] at h
  rcases h with ⟨kv, hfind, hv⟩
  simp only [containsKey, List.any_eq_true]
  have hp := (List.find?_eq_some.mp hfind).1
  exact ⟨kv, List.mem_of_find?_eq_some hfind, hp⟩

theorem mem_updateEntry {α : Type} (l : List (Nat × α)) (k : Nat) (f : α → α)
    {kv' : Nat × α} (h : kv' ∈ updateEntry l k f) :
    ∃ kv ∈ l, kv' = kv ∨ kv' = (kv.1, f kv.2) := by
  rcases List.mem_map.mp h with ⟨kv, hkv, he⟩
  refine ⟨kv, hkv, ?_⟩
  by_cases hk : kv.1 = k
  · right; rw [if_pos hk] at he; exact he.symm
  · left; rw [if_neg hk] at he; exact he.symm

theorem mem_updateEntry_of_ne {α : Type} (l : List (Nat × α)) (k : Nat)
    (f : α → α) {kv : Nat × α} (h : kv ∈ l) (hk : kv.1 ≠ k) :
    kv ∈ updateEntry l k f := by
  have : (if kv.1 = k then (kv.1, f kv.2) else kv) ∈ updateEntry l k f :=
    List.mem_map_of_mem _ h
  rwa [if_neg hk] at this

theorem keys_updateEntry {α : Type} (l : List (Nat × α)) (k : Nat)
    (f : α → α) :
    (updateEntry l k f).map (fun kv => kv.1) = l.map (fun kv => kv.1) := by
  induction l with
  | nil => rfl
  | cons kv rest ih =>
    simp only [updateEntry, List.map_cons] at *
    by_cases hk : kv.1 = k
    · rw [if_pos hk]; simpa using ih
    · rw [if_neg hk]; simpa using ih

theorem containsKey_eq_false_of_findOne_none {α : Type} (l : List (Nat × α))
    (k : Nat) (h : findOne l k = none) : containsKey l k = false := by
  simp only [findOne, Option.map_eq_none'] at h
  rw [containsKey, List.any_eq_false]
  intro kv hkv
  simpa using List.find?_eq_none.mp h kv hkv

/-! ### C2: finalizeSale balance check, effects and accumulation -/

/-- **C2**: for an existing player and team, `finalizeSale` fails with
`InvalidArgument` (store untouched) when the sale price exceeds the team's
current purse balance; otherwise it succeeds, marks the player
`sold`/`sold_to_team_id`/`sold_price`, and stores the balance decreased by
exactly the sale price — so the worked example accumulates: balance 8000,
sale at 1500 gives 6500, then a second finalize for the other player at
1000 gives 5500. -/
theorem finalize_player_sale_spec (db : DB) (player_id team_id : Nat)
    (sale_price : Int) (player : Player) (team : Team)
    (hp : findOne db.players player_id = some player)
    (ht : findOne db.teams team_id = some team) :
    (team.purse_balance.getD 8000 < sale_price →
      finalize_player_sale db player_id team_id sale_price =
        .err .invalidArgument db) ∧
    (sale_price ≤ team.purse_balance.getD 8000 →
      ∃ db', finalize_player_sale db player_id team_id sale_price = .ok db' ∧
        findOne db'.players player_id = some { player with
          auction_status := some .sold,
          sold_to_team_id := some team_id,
          sold_price := some sale_price } ∧
        findOne db'.teams team_id = some { team with
          purse_balance :=
            some (team.purse_balance.getD 8000 - sale_price) }) ∧
    ((finalize_player_sale exDB 10 1 1500).isOk = true ∧
      findOne exDBafterSale.teams 1 =
        some { exTeam with purse_balance := some 6500 } ∧
      (finalize_player_sale exDBafterSale 11 1 1000).isOk = true ∧
      findOne (finalize_player_sale exDBafterSale 11 1 1000).db.teams 1 =
        some { exTeam with purse_balance := some 5500 }) := by
  refine ⟨?_, ?_, by decide⟩
  · intro hover
    simp only [finalize_player_sale, ht]
    rw [if_pos hover]
  · intro hle
    simp only [finalize_player_sale, ht]
    rw [if_neg (not_lt.mpr hle), if_pos (containsKey_of_findOne _ _ hp)]
    refine ⟨_, rfl, ?_, ?_⟩
    · rw [findOne_updateEntry_self, hp]; rfl
    · rw [findOne_updateEntry_self, ht]; rfl

/-- Witness for C2 at the concrete store `exDB`. -/
theorem finalize_player_sale_spec_witness :
    findOne exDB.players 10 = some exPlayerA ∧
    findOne exDB.teams 1 = some exTeam ∧
    ((exTeam.purse_balance.getD 8000 < 1500 →
      finalize_player_sale exDB 10 1 1500 = .err .invalidArgument exDB) ∧
    (1500 ≤ exTeam.purse_balance.getD 8000 →
      ∃ db', finalize_player_sale exDB 10 1 1500 = .ok db' ∧
        findOne db'.players 10 = some { exPlayerA with
          auction_status := some .sold,
          sold_to_team_id := some 1,
          sold_price := some 1500 } ∧
        findOne db'.teams 1 = some { exTeam with
          purse_balance := some (exTeam.purse_balance.getD 8000 - 1500) }) ∧
    ((finalize_player_sale exDB 10 1 1500).isOk = true ∧
      findOne exDBafterSale.teams 1 =
        some { exTeam with purse_balance := some 6500 } ∧
      (finalize_player_sale exDBafterSale 11 1 1000).isOk = true ∧
      findOne (finalize_player_sale exDBafterSale 11 1 1000).db.teams 1 =
        some { exTeam with purse_balance := some 5500 })) :=
  ⟨by decide, by decide,
    finalize_player_sale_spec exDB 10 1 1500 exPlayerA exTeam
      (by decide) (by decide)⟩

/-! ### C10: finalizeSale with a missing player leaves the team untouched -/

/-- **C10**: when the team exists with sufficient balance but no player with
the given id exists, `finalizeSale` fails with `NotFound` and the store —
in particular the team's purse — is exactly the original one: the
missing-player check fires before the purse deduction is written. -/
theorem finalize_player_sale_missing_player (db : DB) (player_id team_id : Nat)
    (sale_price : Int) (team : Team)
    (ht : findOne db.teams team_id = some team)
    (hbal : sale_price ≤ team.purse_balance.getD 8000)
    (hp : findOne db.players player_id = none) :
    finalize_player_sale db player_id team_id sale_price =
      .err .notFound db := by
  have hc := containsKey_eq_false_of_findOne_none _ _ hp
  simp only [finalize_player_sale, ht]
  rw [if_neg (not_lt.mpr hbal), hc]
  simp only [Bool.false_eq_true, if_false]
  rw [updateEntry_of_not_contains _ _ _ hc]

/-- Witness for C10: team 1 exists with balance 8000 ≥ 1500, player 99 does
not exist. -/
theorem finalize_player_sale_missing_player_witness :
    findOne exDB.teams 1 = some exTeam ∧
    (1500 : Int) ≤ exTeam.purse_balance.getD 8000 ∧
    findOne exDB.players 99 = none ∧
    finalize_player_sale exDB 99 1 1500 = .err .notFound exDB :=
  ⟨by decide, by decide, by decide,
    finalize_player_sale_missing_player exDB 99 1 1500 exTeam
      (by decide) (by decide) (by decide)⟩

/-! ### C1: placeBid first-bid and raise validation -/

/-- **C1**: for an existing player and team and a bid within the team's
purse balance: with no prior bid, `placeBid` succeeds exactly when the
amount is at least the player's base price and otherwise fails with
`InvalidArgument`; with a prior highest bid, it succeeds exactly when the
amount is strictly greater and otherwise fails with `InvalidArgument`. -/
theorem create_bid_bid_validation (db : DB) (player_id team_id : Nat)
    (amount : Int) (player : Player) (team : Team)
    (hp : findOne db.players player_id = some player)
    (ht : findOne db.teams team_id = some team)
    (hpurse : amount ≤ team.purse_balance.getD 8000) :
    (highestBidAmount db.bids player_id = none →
      ((create_bid db player_id team_id amount).isOk = true ↔
        player.base_price.getD 100 ≤ amount) ∧
      (amount < player.base_price.getD 100 →
        create_bid db player_id team_id amount = .err .invalidArgument db)) ∧
    (∀ highest, highestBidAmount db.bids player_id = some highest →
      ((create_bid db player_id team_id amount).isOk = true ↔
        highest < amount) ∧
      (amount ≤ highest →
        create_bid db player_id team_id amount = .err .invalidArgument db)) := by
  constructor
  · intro hnb
    simp only [create_bid, hp, ht, hnb]
    rw [if_neg (not_lt.mpr hpurse)]
    by_cases hb : amount < player.base_price.getD 100
    · rw [if_pos hb]
      exact ⟨by simp [Result.isOk]; omega, fun _ => rfl⟩
    · rw [if_neg hb]
      exact ⟨by simp [Result.isOk]; omega, fun h => absurd h hb⟩
  · intro highest hhb
    simp only [create_bid, hp, ht, hhb]
    rw [if_neg (not_lt.mpr hpurse)]
    by_cases hb : amount ≤ highest
    · rw [if_pos hb]
      exact ⟨by simp [Result.isOk]; omega, fun _ => rfl⟩
    · rw [if_neg hb]
      exact ⟨by simp [Result.isOk]; omega, fun h => absurd h hb⟩

/-- Witness for C1: base price 100, first bid of 100 accepted and of 99
rejected; with a recorded highest bid of 100, a bid of 100 is rejected and
one of 101 accepted. -/
theorem create_bid_bid_validation_witness :
    (create_bid exDB 10 1 100).isOk = true ∧
    create_bid exDB 10 1 99 = .err .invalidArgument exDB ∧
    create_bid exDBbid 10 1 100 = .err .invalidArgument exDBbid ∧
    (create_bid exDBbid 10 1 101).isOk = true :=
  ⟨((create_bid_bid_validation exDB 10 1 100 exPlayerA exTeam (by decide)
      (by decide) (by decide)).1 (by decide)).1.mpr (by decide),
   ((create_bid_bid_validation exDB 10 1 99 exPlayerA exTeam (by decide)
      (by decide) (by decide)).1 (by decide)).2 (by decide),
   ((create_bid_bid_validation exDBbid 10 1 100 exPlayerA exTeam (by decide)
      (by decide) (by decide)).2 100 (by decide)).2 (by decide),
   ((create_bid_bid_validation exDBbid 10 1 101 exPlayerA exTeam (by decide)
      (by decide) (by decide)).2 100 (by decide)).1.mpr (by decide)⟩

/-! ### C4: placeBid purse-balance check -/

/-- **C4**: for an existing player and team, `placeBid` fails with
`InvalidArgument` whenever the amount strictly exceeds the team's current
purse balance, and an amount exactly equal to the balance passes the purse
check (it succeeds whenever the bid-validation condition allows it, e.g. as
a first bid at or above base price). -/
theorem create_bid_purse_check (db : DB) (player_id team_id : Nat)
    (amount : Int) (player : Player) (team : Team)
    (hp : findOne db.players player_id = some player)
    (ht : findOne db.teams team_id = some team) :
    (team.purse_balance.getD 8000 < amount →
      create_bid db player_id team_id amount = .err .invalidArgument db) ∧
    (amount = team.purse_balance.getD 8000 →
      highestBidAmount db.bids player_id = none →
      player.base_price.getD 100 ≤ amount →
      (create_bid db player_id team_id amount).isOk = true) := by
  constructor
  · intro hover
    simp only [create_bid, hp, ht]
    rw [if_pos hover]
  · intro heq hnb hbase
    simp only [create_bid, hp, ht, hnb]
    rw [if_neg (by omega), if_neg (not_lt.mpr hbase)]
    rfl

/-- Witness for C4: team with balance 500 rejects a bid of 501 and accepts
a bid of 500. -/
theorem create_bid_purse_check_witness :
    create_bid exDB500 10 2 501 = .err .invalidArgument exDB500 ∧
    (create_bid exDB500 10 2 500).isOk = true :=
  ⟨(create_bid_purse_check exDB500 10 2 501 exPlayerA exTeam500 (by decide)
      (by decide)).1 (by decide),
   (create_bid_purse_check exDB500 10 2 500 exPlayerA exTeam500 (by decide)
      (by decide)).2 (by decide) (by decide) (by decide)⟩

/-! ### C3: assignIcon gating and purse recomputation -/

/-- **C3**: for an existing team and existing non-icon player, `assignIcon`
succeeds exactly when the team currently holds fewer than
`MAX_ICON_PLAYERS` (2) icon players (otherwise it fails with
`InvalidArgument`), and on success marks the player and stores the team's
purse balance as `DEFAULT_PURSE_BALANCE` minus the new icon count times
`ICON_PLAYER_COST` — a recomputation from the default that ignores the
previously stored balance; the worked example holds: two successive
assignments to a fresh team yield balance 5000 and a third attempt is
rejected. -/
theorem assign_icon_player_spec (db : DB) (player_id team_id : Nat)
    (player : Player) (team : Team)
    (hp : findOne db.players player_id = some player)
    (hicon : player.is_icon_player = false)
    (ht : findOne db.teams team_id = some team) :
    (((assign_icon_player db player_id team_id).isOk = true) ↔
      team.icon_player_ids.length < MAX_ICON_PLAYERS) ∧
    (team.icon_player_ids.length ≥ MAX_ICON_PLAYERS →
      assign_icon_player db player_id team_id = .err .invalidArgument db) ∧
    (team.icon_player_ids.length < MAX_ICON_PLAYERS →
      ∃ db', assign_icon_player db player_id team_id = .ok db' ∧
        findOne db'.players player_id = some { player with
          is_icon_player := true,
          icon_player_team_id := some team_id } ∧
        findOne db'.teams team_id = some { team with
          icon_player_ids := team.icon_player_ids ++ [player_id],
          purse_balance := some (DEFAULT_PURSE_BALANCE -
            ((team.icon_player_ids.length : Int) + 1) * ICON_PLAYER_COST) }) ∧
    ((assign_icon_player exDB3 10 1).isOk = true ∧
      (assign_icon_player exDBicon1 11 1).isOk = true ∧
      findOne exDBicon2.teams 1 = some { exTeam with
        icon_player_ids := [10, 11], purse_balance := some 5000 } ∧
      assign_icon_player exDBicon2 12 1 = .err .invalidArgument exDBicon2) := by
  have hlen1 : ((team.icon_player_ids ++ [player_id]).length : Int) =
      (team.icon_player_ids.length : Int) + 1 := by simp
  simp only [assign_icon_player, hp, hicon, Bool.false_eq_true, if_false, ht]
  by_cases hlen : team.icon_player_ids.length ≥ MAX_ICON_PLAYERS
  · rw [if_pos hlen]
    refine ⟨by simp [Result.isOk]; omega, fun _ => rfl,
      fun hlt => absurd hlt (by omega), by decide⟩
  · rw [if_neg hlen]
    refine ⟨by simp [Result.isOk]; omega, fun hge => absurd hge hlen,
      fun _ => ?_, by decide⟩
    refine ⟨_, rfl, ?_, ?_⟩
    · rw [findOne_updateEntry_self, hp]
      rfl
    · rw [findOne_updateEntry_self, ht]
      simp only [Option.map_some', Option.some.injEq]
      rw [hlen1]

/-- Witness for C3: fresh team 1 and non-icon player 10 in `exDB3`. -/
theorem assign_icon_player_spec_witness :
    findOne exDB3.players 10 = some exPlayerA ∧
    exPlayerA.is_icon_player = false ∧
    findOne exDB3.teams 1 = some exTeam ∧
    ((assign_icon_player exDB3 10 1).isOk = true ↔
      exTeam.icon_player_ids.length < MAX_ICON_PLAYERS) :=
  ⟨by decide, by decide, by decide,
    (assign_icon_player_spec exDB3 10 1 exPlayerA exTeam (by decide)
      (by decide) (by decide)).1⟩

/-! ### C9: successful placeBid leaves the teams collection untouched -/

/-- **C9**: a successful `placeBid` leaves the `teams` collection — in
particular the bidding team's purse balance — exactly as it was; its only
writes are the appended bid document and the bid player's
`auction_status := live` (every other player document is untouched, and the
target player's other fields are preserved). -/
theorem create_bid_frame (db : DB) (player_id team_id : Nat) (amount : Int)
    (db' : DB) (h : create_bid db player_id team_id amount = .ok db') :
    db'.teams = db.teams ∧
    (∃ team, findOne db.teams team_id = some team ∧
      db'.bids = db.bids ++ [⟨player_id, team_id, amount, team.name⟩]) ∧
    db'.registrations = db.registrations ∧
    (∀ kv ∈ db.players, kv.1 ≠ player_id → kv ∈ db'.players) ∧
    findOne db'.players player_id = (findOne db.players player_id).map
      (fun p => { p with auction_status := some .live }) := by
  cases hp : findOne db.players player_id with
  | none =>
    simp only [create_bid, hp] at h
    exact Result.noConfusion h
  | some player =>
    cases ht : findOne db.teams team_id with
    | none =>
      simp only [create_bid, hp, ht] at h
      exact Result.noConfusion h
    | some team =>
      simp only [create_bid, hp, ht] at h
      by_cases hpurse : amount > team.purse_balance.getD 8000
      · rw [if_pos hpurse] at h; exact Result.noConfusion h
      · rw [if_neg hpurse] at h
        have heff : db'.bids =
            db.bids ++ [⟨player_id, team_id, amount, team.name⟩] ∧
            db'.teams = db.teams ∧ db'.registrations = db.registrations ∧
            db'.players = updateEntry db.players player_id
              (fun p => { p with auction_status := some .live }) := by
          split at h
          · split at h
            · exact Result.noConfusion h
            · cases h; exact ⟨rfl, rfl, rfl, rfl⟩
          · split at h
            · exact Result.noConfusion h
            · cases h; exact ⟨rfl, rfl, rfl, rfl⟩
        obtain ⟨hb, ht2, hr, hpl⟩ := heff
        refine ⟨ht2, ⟨team, rfl, hb⟩, hr, ?_, ?_⟩
        · intro kv hkv hne
          rw [hpl]
          exact mem_updateEntry_of_ne _ _ _ hkv hne
        · rw [hpl, findOne_updateEntry_self, hp]

/-- Witness for C9 at the concrete first bid of the C1 example. -/
theorem create_bid_frame_witness :
    ∃ db', create_bid exDB 10 1 100 = .ok db' ∧
      (db'.teams = exDB.teams ∧
      (∃ team, findOne exDB.teams 1 = some team ∧
        db'.bids = exDB.bids ++ [⟨10, 1, 100, team.name⟩]) ∧
      db'.registrations = exDB.registrations ∧
      (∀ kv ∈ exDB.players, kv.1 ≠ 10 → kv ∈ db'.players) ∧
      findOne db'.players 10 = (findOne exDB.players 10).map
        (fun p => { p with auction_status := some .live })) :=
  ⟨(create_bid exDB 10 1 100).db, by decide,
    create_bid_frame exDB 10 1 100 (create_bid exDB 10 1 100).db (by decide)⟩

/-! ### C7: registration approval and payment-reference dedup -/

/-- **C7**: approving a pending registration with a non-blank payment
reference fails with `InvalidArgument` when some registration with status
`approved` already carries that reference, and succeeds when every
registration carrying it is not approved (only rejected or pending ones);
on success the registration becomes `approved` with the reference stored,
and a new player document synthesized from the registration's applicant
fields is inserted. -/
theorem approve_registration_spec (db : DB) (registration_id : Nat)
    (payment_reference : String) (newPlayerId : Nat) (reg : Registration)
    (hreg : findOne db.registrations registration_id = some reg)
    (hpend : reg.status = .pending)
    (href : pyStrip payment_reference ≠ "") :
    ((∃ kv ∈ db.registrations,
        kv.2.payment_reference = some (pyStrip payment_reference) ∧
        kv.2.status = .approved) →
      approve_registration db registration_id payment_reference newPlayerId =
        .err .invalidArgument db) ∧
    ((∀ kv ∈ db.registrations,
        kv.2.payment_reference = some (pyStrip payment_reference) →
        kv.2.status ≠ .approved) →
      ∃ db', approve_registration db registration_id payment_reference
          newPlayerId = .ok db' ∧
        findOne db'.registrations registration_id = some { reg with
          status := .approved,
          rejection_reason := none,
          payment_reference := some (pyStrip payment_reference) } ∧
        db'.players = db.players ++ [(newPlayerId,
          { name := reg.player_name, phone := reg.phone, role := reg.role,
            place := reg.place, base_price := none, auction_status := none,
            is_icon_player := false, icon_player_team_id := none,
            auction_order := none, sold_price := none,
            sold_to_team_id := none })]) := by
  constructor
  · rintro ⟨kv, hmem, hrefkv, happ⟩
    have hfind : (db.registrations.find? (fun kv =>
        kv.2.payment_reference == some (pyStrip payment_reference) &&
        kv.2.status == RegistrationStatus.approved)).isSome := by
      rw [List.find?_isSome]
      exact ⟨kv, hmem, by simp [hrefkv, happ]⟩
    obtain ⟨kvf, hkvf⟩ := Option.isSome_iff_exists.mp hfind
    simp only [approve_registration, if_neg href, hkvf]
  · intro hfree
    have hnone : db.registrations.find? (fun kv =>
        kv.2.payment_reference == some (pyStrip payment_reference) &&
        kv.2.status == RegistrationStatus.approved) = none := by
      rw [List.find?_eq_none]
      intro kv hmem
      simp only [Bool.and_eq_true, beq_iff_eq, not_and]
      exact fun h1 => hfree kv hmem h1
    simp only [approve_registration, if_neg href, hnone, hreg]
    refine ⟨_, rfl, ?_, rfl⟩
    rw [findOne_updateEntry_self, hreg]
    rfl

/-- Witness for C7: in `exDBreg` the reference `R1` was used only by a
rejected registration, so approving the pending registration 5 succeeds and
inserts a player; in `exDBregUsed` an approved registration carries `R1`,
so the same call fails with `InvalidArgument`. -/
theorem approve_registration_spec_witness :
    (∃ db', approve_registration exDBreg 5 "R1" 100 = .ok db' ∧
      findOne db'.registrations 5 = some { exRegPending with
        status := .approved,
        rejection_reason := none,
        payment_reference := some (pyStrip "R1") } ∧
      db'.players = exDBreg.players ++ [(100,
        { name := exRegPending.player_name, phone := exRegPending.phone,
          role := exRegPending.role, place := exRegPending.place,
          base_price := none, auction_status := none,
          is_icon_player := false, icon_player_team_id := none,
          auction_order := none, sold_price := none,
          sold_to_team_id := none })]) ∧
    approve_registration exDBregUsed 5 "R1" 100 =
      .err .invalidArgument exDBregUsed :=
  ⟨(approve_registration_spec exDBreg 5 "R1" 100 exRegPending (by decide)
      (by decide) (by decide)).2 (by decide),
   (approve_registration_spec exDBregUsed 5 "R1" 100 exRegPending (by decide)
      (by decide) (by decide)).1
     ⟨(6, exRegApproved), by decide, by decide, by decide⟩⟩

/-! ### C5: updateOrder swap semantics -/

theorem findOne_eq_of_mem {α : Type} (l : List (Nat × α))
    (hnd : (l.map (fun kv => kv.1)).Nodup) {k : Nat} {v : α}
    (h : (k, v) ∈ l) : findOne l k = some v := by
  induction l with
  | nil => cases h
  | cons kv rest ih =>
    rcases List.mem_cons.mp h with he | hm
    · rw [← he, findOne, List.find?_cons_of_pos _ (by simp)]
      rfl
    · have hk : k ∈ rest.map (fun kv => kv.1) :=
        List.mem_map.mpr ⟨(k, v), hm, rfl⟩
      have hne : kv.1 ≠ k := by
        intro he'
        exact (List.nodup_cons.mp hnd).1 (by simpa [← he'] using hk)
      rw [findOne, List.find?_cons_of_neg _ (by simpa using hne)]
      exact ih (List.nodup_cons.mp hnd).2 hm

/-- **C5**: for an existing player `a` (unique `_id`s), `updateOrder(a, n)`
with no other player holding order `n` simply sets `a`'s order to `n` and
leaves every other player document unchanged; when exactly one other player
`b` holds order `n`, the call swaps: `a` receives order `n`, `b` receives
`a`'s previous order, and every other player document is unchanged. -/
theorem update_auction_order_spec (db : DB) (a n : Nat) (pA : Player)
    (hnd : (db.players.map (fun kv => kv.1)).Nodup)
    (hA : findOne db.players a = some pA) :
    ((∀ kv ∈ db.players, kv.1 ≠ a → kv.2.auction_order ≠ some n) →
      ∃ db', update_auction_order db a n = .ok db' ∧
        findOne db'.players a = some { pA with auction_order := some n } ∧
        ∀ kv ∈ db.players, kv.1 ≠ a → kv ∈ db'.players) ∧
    (∀ b pB, (b, pB) ∈ db.players → b ≠ a → pB.auction_order = some n →
      (∀ kv ∈ db.players, kv.2.auction_order = some n → kv.1 ≠ a →
        kv = (b, pB)) →
      ∃ db', update_auction_order db a n = .ok db' ∧
        findOne db'.players a = some { pA with auction_order := some n } ∧
        findOne db'.players b =
          some { pB with auction_order := pA.auction_order } ∧
        ∀ kv ∈ db.players, kv.1 ≠ a → kv.1 ≠ b → kv ∈ db'.players) := by
  constructor
  · intro hno
    have hfind : db.players.find? (fun kv =>
        kv.2.auction_order == some n && kv.1 != a) = none := by
      rw [List.find?_eq_none]
      intro kv hmem
      simp only [Bool.and_eq_true, beq_iff_eq, bne_iff_ne, not_and]
      intro ho hne
      exact absurd ho (hno kv hmem hne)
    simp only [update_auction_order, hA, hfind]
    refine ⟨_, rfl, ?_, ?_⟩
    · rw [findOne_updateEntry_self, hA]
      rfl
    · intro kv hmem hne
      exact mem_updateEntry_of_ne _ a
        (fun p => { p with auction_order := some n }) hmem hne
  · intro b pB hmemB hba horder huniq
    have hsome : (db.players.find? (fun kv =>
        kv.2.auction_order == some n && kv.1 != a)).isSome := by
      rw [List.find?_isSome]
      exact ⟨(b, pB), hmemB, by simp [horder, hba]⟩
    obtain ⟨x, hx⟩ := Option.isSome_iff_exists.mp hsome
    have hqx := (List.find?_eq_some.mp hx).1
    have hmemx := List.mem_of_find?_eq_some hx
    simp only [Bool.and_eq_true, beq_iff_eq, bne_iff_ne] at hqx
    have hxeq : x = (b, pB) := huniq x hmemx hqx.1 hqx.2
    subst hxeq
    simp only [update_auction_order, hA, hx]
    refine ⟨_, rfl, ?_, ?_, ?_⟩
    · rw [findOne_updateEntry_self,
        findOne_updateEntry_ne _ _ _ _ (Ne.symm hba), hA]
      rfl
    · rw [findOne_updateEntry_ne _ _ _ _ hba, findOne_updateEntry_self,
        findOne_eq_of_mem _ hnd hmemB]
      rfl
    · intro kv hmem hnea hneb
      exact mem_updateEntry_of_ne _ a
        (fun p => { p with auction_order := some n })
        (mem_updateEntry_of_ne _ b
          (fun p => { p with auction_order := pA.auction_order }) hmem hneb)
        hnea

/-- Witness for C5 at `exDB`: player 11 holds order 2; moving player 10 to
order 2 swaps the two orders. -/
theorem update_auction_order_spec_witness :
    ∃ db', update_auction_order exDB 10 2 = .ok db' ∧
      findOne db'.players 10 =
        some { exPlayerA with auction_order := some 2 } ∧
      findOne db'.players 11 =
        some { exPlayerB with auction_order := exPlayerA.auction_order } ∧
      ∀ kv ∈ exDB.players, kv.1 ≠ 10 → kv.1 ≠ 11 → kv ∈ db'.players :=
  (update_auction_order_spec exDB 10 2 exPlayerA (by decide) (by decide)).2
    11 exPlayerB (by decide) (by decide) (by decide) (by decide)

/-! ### C6: randomize over pending players is a permutation of 1..K -/

theorem assignOf_not_mem (l : List Nat) (n k : Nat) (h : k ∉ l) :
    assignOf l n k = none := by
  induction l generalizing n with
  | nil => rfl
  | cons pid rest ih =>
    have hne : k ≠ pid := fun he => h (he ▸ List.mem_cons_self pid rest)
    simp only [assignOf,
      ih (n + 1) (fun hm => h (List.mem_cons_of_mem _ hm)), if_neg hne]

theorem assignOf_isSome_of_mem (l : List Nat) (n k : Nat) (h : k ∈ l) :
    (assignOf l n k).isSome := by
  induction l generalizing n with
  | nil => cases h
  | cons pid rest ih =>
    simp only [assignOf]
    by_cases hm : k ∈ rest
    · cases hca : assignOf rest (n + 1) k with
      | none =>
        have := ih (n + 1) hm
        rw [hca] at this
        cases this
      | some m => rfl
    · have hk : k = pid := by
        rcases List.mem_cons.mp h with he | hm'
        · exact he
        · exact absurd hm' hm
      rw [assignOf_not_mem rest (n + 1) k hm, if_pos hk]
      rfl

theorem assignOf_cons_ne (pid : Nat) (rest : List Nat) (n k : Nat)
    (h : k ≠ pid) : assignOf (pid :: rest) n k = assignOf rest (n + 1) k := by
  simp only [assignOf]
  cases assignOf rest (n + 1) k <;> simp [h]

theorem setOrders_eq_map (l : List Nat) (n : Nat)
    (players : List (Nat × Player)) :
    setOrders players l n = players.map (fun kv =>
      match assignOf l n kv.1 with
      | some m => (kv.1, { kv.2 with auction_order := some m })
      | none => kv) := by
  induction l generalizing players n with
  | nil =>
    simp [setOrders, assignOf]
  | cons pid rest ih =>
    rw [setOrders, ih, updateEntry, List.map_map]
    congr 1
    funext kv
    by_cases hpid : kv.1 = pid
    · cases hca : assignOf rest (n + 1) pid with
      | none => simp [assignOf, hca, hpid]
      | some m => simp [assignOf, hca, hpid]
    · cases hca : assignOf rest (n + 1) kv.1 with
      | none => simp [assignOf, hca, hpid]
      | some m => simp [assignOf, hca, hpid]

theorem map_assignOf (l : List Nat) (hl : l.Nodup) (n : Nat) :
    l.map (assignOf l n) =
      (List.range l.length).map (fun i => some (n + i)) := by
  induction l generalizing n with
  | nil => rfl
  | cons pid rest ih =>
    obtain ⟨hnotmem, hndrest⟩ := List.nodup_cons.mp hl
    rw [List.map_cons]
    have hhead : assignOf (pid :: rest) n pid = some n := by
      simp [assignOf, assignOf_not_mem rest (n + 1) pid hnotmem]
    have htail : rest.map (assignOf (pid :: rest) n) =
        rest.map (assignOf rest (n + 1)) := by
      apply List.map_congr_left
      intro x hx
      exact assignOf_cons_ne pid rest n x (fun he => hnotmem (he ▸ hx))
    rw [hhead, htail, ih hndrest,
      List.length_cons, List.range_succ_eq_map, List.map_cons, List.map_map]
    rw [Nat.add_zero]
    congr 1
    apply List.map_congr_left
    intro i hi
    simp only [Function.comp_apply, Option.some.injEq]
    omega

theorem eq_of_mem_same_key {α : Type} (l : List (Nat × α))
    (hnd : (l.map (fun kv => kv.1)).Nodup) {kv kv' : Nat × α}
    (h : kv ∈ l) (h' : kv' ∈ l) (he : kv'.1 = kv.1) : kv' = kv := by
  have h1 : findOne l kv.1 = some kv.2 :=
    findOne_eq_of_mem l hnd (by simpa using h)
  have h2 : findOne l kv'.1 = some kv'.2 :=
    findOne_eq_of_mem l hnd (by simpa using h')
  rw [he, h1] at h2
  exact Prod.ext he (Option.some.inj h2).symm

/-- **C6**: with `shuffled` any permutation of the pending players' ids
(the outcome of `random.shuffle`), `randomize(onlyPending = true)` over a
store with unique `_id`s and K pending players reassigns exactly the
pending players' `auction_order` values to a permutation of `{1..K}` (each
value occurring exactly once), keeps the collection's size, and leaves
every player document outside the pending set unmodified. -/
theorem randomize_auction_order_spec (db : DB) (shuffled : List Nat)
    (hnd : (db.players.map (fun kv => kv.1)).Nodup)
    (hperm : shuffled.Perm (randomizeIds db.players true)) :
    List.Perm
      (((randomize_auction_order db shuffled).players.filter
          (fun kv => kv.2.auction_status == some AuctionStatus.pending)).map
        (fun kv => kv.2.auction_order))
      ((List.range (randomizeIds db.players true).length).map
        (fun i => some (i + 1))) ∧
    (randomize_auction_order db shuffled).players.length =
      db.players.length ∧
    (∀ kv ∈ db.players, kv.2.auction_status ≠ some AuctionStatus.pending →
      kv ∈ (randomize_auction_order db shuffled).players) := by
  have hids : randomizeIds db.players true =
      (db.players.filter
        (fun kv => kv.2.auction_status == some AuctionStatus.pending)).map
        (fun kv => kv.1) := by
    simp [randomizeIds]
  have hidsnodup : (randomizeIds db.players true).Nodup := by
    rw [hids]
    exact List.Nodup.sublist
      (List.Sublist.map (fun kv => kv.1) (List.filter_sublist db.players)) hnd
  have hshufnodup : shuffled.Nodup := hperm.nodup_iff.mpr hidsnodup
  have hres : (randomize_auction_order db shuffled).players =
      db.players.map (fun kv =>
        match assignOf shuffled 1 kv.1 with
        | some m => (kv.1, { kv.2 with auction_order := some m })
        | none => kv) := by
    simp [randomize_auction_order, setOrders_eq_map]
  refine ⟨?_, ?_, ?_⟩
  · rw [hres, List.filter_map, List.map_map]
    have hfilter : db.players.filter
        ((fun kv => kv.2.auction_status == some AuctionStatus.pending) ∘
          (fun kv => match assignOf shuffled 1 kv.1 with
            | some m => (kv.1, { kv.2 with auction_order := some m })
            | none => kv)) =
        db.players.filter
          (fun kv => kv.2.auction_status == some AuctionStatus.pending) := by
      apply List.filter_congr
      intro kv _
      cases hca : assignOf shuffled 1 kv.1 <;> simp [hca]
    rw [hfilter]
    have hmapord : (db.players.filter
        (fun kv => kv.2.auction_status == some AuctionStatus.pending)).map
          ((fun kv => kv.2.auction_order) ∘ (fun kv =>
            match assignOf shuffled 1 kv.1 with
            | some m => (kv.1, { kv.2 with auction_order := some m })
            | none => kv)) =
        (db.players.filter
          (fun kv => kv.2.auction_status == some AuctionStatus.pending)).map
          (fun kv => assignOf shuffled 1 kv.1) := by
      apply List.map_congr_left
      intro kv hkv
      have hmemp : kv ∈ db.players := List.mem_of_mem_filter hkv
      have hP := List.of_mem_filter hkv
      have hin : kv.1 ∈ shuffled := by
        rw [hperm.mem_iff, hids]
        exact List.mem_map_of_mem _ (List.mem_filter.mpr ⟨hmemp, hP⟩)
      have hsome := assignOf_isSome_of_mem shuffled 1 kv.1 hin
      cases hca : assignOf shuffled 1 kv.1 with
      | none => rw [hca] at hsome; cases hsome
      | some m => simp [hca]
    rw [hmapord]
    have hcollect : (db.players.filter
        (fun kv => kv.2.auction_status == some AuctionStatus.pending)).map
          (fun kv => assignOf shuffled 1 kv.1) =
        (randomizeIds db.players true).map (assignOf shuffled 1) := by
      rw [hids, List.map_map]
      rfl
    rw [hcollect]
    have heq1 : shuffled.map (assignOf shuffled 1) =
        (List.range (randomizeIds db.players true).length).map
          (fun i => some (i + 1)) := by
      rw [map_assignOf shuffled hshufnodup 1, hperm.length_eq]
      apply List.map_congr_left
      intro i _
      rw [Nat.add_comm]
    exact heq1 ▸ (hperm.symm.map (assignOf shuffled 1))
  · rw [hres]
    exact List.length_map _ _
  · intro kv hkv hnp
    have hnotin : kv.1 ∉ shuffled := by
      intro hin
      rw [hperm.mem_iff, hids] at hin
      obtain ⟨kv', hkv', he⟩ := List.mem_map.mp hin
      have hkvmem := List.mem_of_mem_filter hkv'
      have hP := List.of_mem_filter hkv'
      have hkveq : kv' = kv := eq_of_mem_same_key db.players hnd hkv hkvmem he
      rw [hkveq] at hP
      exact hnp (by simpa using hP)
    rw [hres]
    have hfix : (fun kv => match assignOf shuffled 1 kv.1 with
        | some m => (kv.1, { kv.2 with auction_order := some m })
        | none => kv) kv = kv := by
      simp [assignOf_not_mem shuffled 1 kv.1 hnotin]
    have hmm := List.mem_map_of_mem (fun kv =>
        match assignOf shuffled 1 kv.1 with
        | some m => (kv.1, { kv.2 with auction_order := some m })
        | none => kv) hkv
    rwa [hfix] at hmm

/-- Witness for C6: two pending players (10, 11) and one non-pending player
in the store; the shuffle outcome `[11, 10]` yields orders `{1, 2}` on the
pending set and leaves the sold player untouched. -/
theorem randomize_auction_order_spec_witness :
    List.Perm
      (((randomize_auction_order exDBmixed [11, 10]).players.filter
          (fun kv => kv.2.auction_status == some AuctionStatus.pending)).map
        (fun kv => kv.2.auction_order))
      ((List.range (randomizeIds exDBmixed.players true).length).map
        (fun i => some (i + 1))) ∧
    (randomize_auction_order exDBmixed [11, 10]).players.length =
      exDBmixed.players.length ∧
    (∀ kv ∈ exDBmixed.players,
      kv.2.auction_status ≠ some AuctionStatus.pending →
      kv ∈ (randomize_auction_order exDBmixed [11, 10]).players) :=
  randomize_auction_order_spec exDBmixed [11, 10] (by decide)
    (by decide)

/-! ### C8: sold-link invariant — refuted as claimed, holds without the
status-overwriting operations -/

/-- **C8** (counterexample): the claim fails on the code. From the empty
store: create team 1, create auction player 20, finalize the sale at 1500
(player now `sold` with `sold_to_team_id = 1`), then call the public
`updateStatus(20, live)`. The resulting reachable state holds a player
whose `sold_to_team_id` is set while `auction_status` is `live`, not
`sold`. -/
theorem sold_link_counterexample : ¬ (∀ db, Reachable db → SoldLink db) := by
  intro h
  have s1 : Step DB.empty cxDB1 :=
    Step.createTeam _ 1 cxTeamPayload _ (by decide)
  have s2 : Step cxDB1 cxDB2 :=
    Step.createAuctionPlayer _ 20 cxPlayerPayload _ (by decide)
  have s3 : Step cxDB2 cxDB3 :=
    Step.finalizeSale _ 20 1 1500 _ (by decide)
  have s4 : Step cxDB3 cxDB4 :=
    Step.updateStatus _ 20 .live _ (by decide)
  have hreach : Reachable cxDB4 :=
    Relation.ReflTransGen.head s1 (Relation.ReflTransGen.head s2
      (Relation.ReflTransGen.head s3 (Relation.ReflTransGen.single s4)))
  have hviol := h cxDB4 hreach (20, cxViolPlayer) (by decide) (by decide)
  exact absurd hviol (by decide)

theorem soldLink_updateEntry (l : List (Nat × Player)) (k : Nat)
    (f : Player → Player) (hf : ∀ p, PlayerSoldOk p → PlayerSoldOk (f p))
    (hl : ∀ kv ∈ l, PlayerSoldOk kv.2) :
    ∀ kv ∈ updateEntry l k f, PlayerSoldOk kv.2 := by
  intro kv hkv
  obtain ⟨kv0, hkv0, heq⟩ := mem_updateEntry l k f hkv
  rcases heq with heq | heq
  · rw [heq]
    exact hl kv0 hkv0
  · rw [heq]
    exact hf kv0.2 (hl kv0 hkv0)

theorem soldLink_setOrders (l : List Nat) (players : List (Nat × Player))
    (hl : ∀ kv ∈ players, PlayerSoldOk kv.2) :
    ∀ n, ∀ kv ∈ setOrders players l n, PlayerSoldOk kv.2 := by
  induction l generalizing players with
  | nil =>
    intro n kv hkv
    exact hl kv hkv
  | cons pid rest ih =>
    intro n kv hkv
    exact ih _ (soldLink_updateEntry _ pid
      (fun q => { q with auction_order := some n })
      (fun q hq hs => hq hs) hl) (n + 1) kv hkv

theorem soldLink_initPlayersLoop (base_price : Int) (l : List Nat)
    (players : List (Nat × Player))
    (hl : ∀ kv ∈ players, PlayerSoldOk kv.2) :
    ∀ n, ∀ kv ∈ initPlayersLoop players base_price l n,
      PlayerSoldOk kv.2 := by
  induction l generalizing players with
  | nil =>
    intro n kv hkv
    exact hl kv hkv
  | cons pid rest ih =>
    intro n kv hkv
    exact ih _ (soldLink_updateEntry _ pid
      (fun q => { q with
        base_price := some base_price,
        auction_status := some .pending,
        is_icon_player := false,
        icon_player_team_id := none,
        auction_order := some n,
        sold_price := none,
        sold_to_team_id := none })
      (fun q _ hs => Bool.noConfusion hs) hl) (n + 1) kv hkv

theorem safeStep_preserves_soldLink {db db' : DB} (hstep : SafeStep db db')
    (hinv : SoldLink db) : SoldLink db' := by
  cases hstep with
  | createTeam newId payload db' h =>
    simp only [create_team] at h
    split at h
    · exact Result.noConfusion h
    · cases h
      intro kv hkv
      exact hinv kv hkv
  | createAuctionPlayer newId payload db' h =>
    simp only [create_auction_player] at h
    cases h
    intro kv hkv
    rcases List.mem_append.mp hkv with hm | hm
    · exact hinv kv hm
    · rcases List.mem_singleton.mp hm with rfl
      intro hs
      simp [PlayerSoldOk] at hs
  | finalizeSale p t price db' h =>
    simp only [finalize_player_sale] at h
    split at h
    · exact Result.noConfusion h
    · split at h
      · exact Result.noConfusion h
      · split at h
        · cases h
          intro kv hkv
          have hkv' : kv ∈ updateEntry db.players p (fun q => { q with
              auction_status := some .sold, sold_to_team_id := some t,
              sold_price := some price }) := hkv
          exact soldLink_updateEntry _ _ _ (fun q _ _ => rfl) hinv kv hkv'
        · exact Result.noConfusion h
  | markUnsold p db' h =>
    simp only [mark_player_unsold] at h
    split at h
    · cases h
      intro kv hkv
      have hkv' : kv ∈ updateEntry db.players p (fun q => { q with
          auction_status := some .unsold, sold_price := none,
          sold_to_team_id := none }) := hkv
      exact soldLink_updateEntry _ _ _ (fun q _ hs => Bool.noConfusion hs)
        hinv kv hkv'
    · exact Result.noConfusion h
  | assignIcon p t db' h =>
    simp only [assign_icon_player] at h
    split at h
    · exact Result.noConfusion h
    · split at h
      · exact Result.noConfusion h
      · split at h
        · exact Result.noConfusion h
        · split at h
          · exact Result.noConfusion h
          · cases h
            intro kv hkv
            have hkv' : kv ∈ updateEntry db.players p (fun q => { q with
                is_icon_player := true,
                icon_player_team_id := some t }) := hkv
            exact soldLink_updateEntry _ p (fun q => { q with
                is_icon_player := true, icon_player_team_id := some t })
              (fun q hq hs => hq hs) hinv kv hkv'
  | unassignIcon p db' h =>
    simp only [unassign_icon_player] at h
    split at h
    · exact Result.noConfusion h
    · split at h
      · exact Result.noConfusion h
      · split at h
        · cases h
          intro kv hkv
          have hkv' : kv ∈ updateEntry db.players p (fun q => { q with
              is_icon_player := false, icon_player_team_id := none }) := hkv
          exact soldLink_updateEntry _ p (fun q => { q with
              is_icon_player := false, icon_player_team_id := none })
            (fun q hq hs => hq hs) hinv kv hkv'
        · split at h
          · cases h
            intro kv hkv
            have hkv' : kv ∈ updateEntry db.players p (fun q => { q with
                is_icon_player := false,
                icon_player_team_id := none }) := hkv
            exact soldLink_updateEntry _ p (fun q => { q with
                is_icon_player := false, icon_player_team_id := none })
              (fun q hq hs => hq hs) hinv kv hkv'
          · cases h
            intro kv hkv
            have hkv' : kv ∈ updateEntry db.players p (fun q => { q with
                is_icon_player := false,
                icon_player_team_id := none }) := hkv
            exact soldLink_updateEntry _ p (fun q => { q with
                is_icon_player := false, icon_player_team_id := none })
              (fun q hq hs => hq hs) hinv kv hkv'
  | updateOrder p n db' h =>
    simp only [update_auction_order] at h
    split at h
    · exact Result.noConfusion h
    · rename_i player heq
      cases h
      cases hfind : db.players.find?
          (fun kv => kv.2.auction_order == some n && kv.1 != p) with
      | none =>
        simp only [hfind]
        intro kv hkv
        have hkv' : kv ∈ updateEntry db.players p
            (fun q => { q with auction_order := some n }) := hkv
        exact soldLink_updateEntry _ p
          (fun q => { q with auction_order := some n })
          (fun q hq hs => hq hs) hinv kv hkv'
      | some kvB =>
        simp only [hfind]
        intro kv hkv
        have hkv' : kv ∈ updateEntry
            (updateEntry db.players kvB.1
              (fun q => { q with auction_order := player.auction_order }))
            p (fun q => { q with auction_order := some n }) := hkv
        exact soldLink_updateEntry _ p
          (fun q => { q with auction_order := some n })
          (fun q hq hs => hq hs)
          (soldLink_updateEntry _ kvB.1
            (fun q => { q with auction_order := player.auction_order })
            (fun q hq hs => hq hs) hinv) kv hkv'
  | randomize only_pending shuffled hperm =>
    intro kv hkv
    rw [randomize_auction_order, setOrders_eq_map] at hkv
    obtain ⟨kv0, hkv0, heq⟩ := List.mem_map.mp hkv
    cases hca : assignOf shuffled 1 kv0.1 with
    | none =>
      rw [hca] at heq
      rw [← heq]
      exact hinv kv0 hkv0
    | some m =>
      rw [hca] at heq
      rw [← heq]
      exact fun hs => hinv kv0 hkv0 hs
  | approveRegistration rid ref newId db' h =>
    simp only [approve_registration] at h
    split at h
    · exact Result.noConfusion h
    · split at h
      · exact Result.noConfusion h
      · split at h
        · exact Result.noConfusion h
        · cases h
          intro kv hkv
          rcases List.mem_append.mp hkv with hm | hm
          · exact hinv kv hm
          · rcases List.mem_singleton.mp hm with rfl
            intro hs
            simp [PlayerSoldOk] at hs
  | deletePlayer p db' h =>
    simp only [delete_player] at h
    split at h
    · cases h
      intro kv hkv
      have hkv' : kv ∈ db.players.eraseP (fun kv => kv.1 == p) := hkv
      exact hinv kv ((List.eraseP_sublist db.players).subset hkv')
    · exact Result.noConfusion h
  | updateTeam t payload db' h =>
    simp only [update_team] at h
    split at h
    · exact Result.noConfusion h
    · split at h
      · cases h
        intro kv hkv
        exact hinv kv hkv
      · exact Result.noConfusion h
  | deleteTeam t db' h =>
    simp only [delete_team] at h
    split at h
    · cases h
      intro kv hkv
      exact hinv kv hkv
    · exact Result.noConfusion h
  | deleteBid i db' h =>
    simp only [delete_bid] at h
    split at h
    · cases h
      intro kv hkv
      exact hinv kv hkv
    · exact Result.noConfusion h
  | createRegistration newId payload db' h =>
    simp only [create_registration] at h
    split at h
    · exact Result.noConfusion h
    · split at h
      · exact Result.noConfusion h
      · cases h
        intro kv hkv
        exact hinv kv hkv
  | updateRegistration rid payload db' h =>
    simp only [update_registration] at h
    split at h
    · cases h
      intro kv hkv
      exact hinv kv hkv
    · exact Result.noConfusion h
  | rejectRegistration rid reason db' h =>
    simp only [reject_registration] at h
    split at h
    · cases h
      intro kv hkv
      exact hinv kv hkv
    · exact Result.noConfusion h
  | deleteRegistration rid db' h =>
    simp only [delete_registration] at h
    split at h
    · cases h
      intro kv hkv
      exact hinv kv hkv
    · exact Result.noConfusion h
  | initializeForAllPlayers base_price db' h =>
    simp only [initialize_auction_for_all_players] at h
    cases h
    intro kv hkv
    have hkv' : kv ∈ initPlayersLoop db.players base_price
        (notInAuctionIds db.players) (maxOrder db.players + 1) := hkv
    exact soldLink_initPlayersLoop base_price (notInAuctionIds db.players)
      db.players hinv (maxOrder db.players + 1) kv hkv'
  | initializeOrderOnly db' h =>
    simp only [initialize_auction_order] at h
    cases h
    intro kv hkv
    have hkv' : kv ∈ setOrders db.players (noOrderIds db.players)
        (maxOrder db.players + 1) := hkv
    exact soldLink_setOrders (noOrderIds db.players) db.players hinv
      (maxOrder db.players + 1) kv hkv'

/-- **C8** (amended): over the claimed operation set minus only the
operations the counterexample family forces out — the unconstrained
`updateStatus` override, `placeBid` (which forces
`auction_status := live` without clearing the sold fields), and raw player
create/update (whose payloads can carry `sold_to_team_id` directly; player
creation goes through the auction-player creator, which nulls the sold
fields) — every state reachable from the empty store satisfies the
invariant: a player with `sold_to_team_id` set has
`auction_status == sold`. All remaining public operations are kept: team
create/update/delete, auction-player create, player delete, finalization,
unsold marking, icon assignment/unassignment, order update, randomization,
both order initializers, bid deletion, and registration
create/update/reject/delete/approve. -/
theorem sold_link_invariant (db : DB) (h : ReachableSafe db) :
    SoldLink db := by
  induction h with
  | refl => intro kv hkv; cases hkv
  | tail _ hstep ih => exact safeStep_preserves_soldLink hstep ih

/-- Witness for the amended C8 at the concrete chain
team-create → player-create → finalize. -/
theorem sold_link_invariant_witness : SoldLink cxDB3 :=
  sold_link_invariant cxDB3
    (Relation.ReflTransGen.head
      (SafeStep.createTeam DB.empty 1 cxTeamPayload cxDB1 (by decide))
      (Relation.ReflTransGen.head
        (SafeStep.createAuctionPlayer cxDB1 20 cxPlayerPayload cxDB2
          (by decide))
        (Relation.ReflTransGen.single
          (SafeStep.finalizeSale cxDB2 20 1 1500 cxDB3 (by decide)))))
